import Mathlib

/-!
Shallow embedding of the HW_14 contacts repository
(`src/database/models.py`, `src/schemas.py`, `src/repository/contacts.py`)
and proofs about its specification claims.

The store is modelled as a `List Contact`; each repository operation is a
pure function over it.  Python runtime errors (TypeError on an invalid
keyword argument for a declarative model, AttributeError on a missing
pydantic field, ValueError from a validator) are modelled with `Except`.
-/

namespace HW14

/-- Calendar date, as `datetime.date` restricted to the fields the code
uses (year, month, day).  Python dates satisfy 1 ≤ year ≤ 9999. -/
structure Date where
  year : Nat
  month : Nat
  day : Nat
deriving DecidableEq, Repr

/-- Gregorian leap-year rule, as implemented by `datetime`. -/
def isLeapYear (y : Nat) : Bool :=
  y % 4 == 0 && (y % 100 != 0 || y % 400 == 0)

/-- Number of days in a month, as implemented by `datetime`. -/
def daysInMonth (y m : Nat) : Nat :=
  if m == 2 then (if isLeapYear y then 29 else 28)
  else if m == 4 || m == 6 || m == 9 || m == 11 then 30
  else 31

/-- Validity of a `Date` per `datetime.date`: year in 1..9999, month in
1..12, day in 1..days-in-month. -/
def Date.valid (d : Date) : Bool :=
  1 ≤ d.year && d.year ≤ 9999 && 1 ≤ d.month && d.month ≤ 12 &&
    1 ≤ d.day && d.day ≤ daysInMonth d.year d.month

/-- Value of a decimal digit character, `none` for a non-digit.  Mirrors
the digit recognition done by `date.fromisoformat` when it converts the
`YYYY`, `MM`, `DD` groups with `int()`. -/
def digitVal? (c : Char) : Option Nat :=
  if c = '0' then some 0
  else if c = '1' then some 1
  else if c = '2' then some 2
  else if c = '3' then some 3
  else if c = '4' then some 4
  else if c = '5' then some 5
  else if c = '6' then some 6
  else if c = '7' then some 7
  else if c = '8' then some 8
  else if c = '9' then some 9
  else none

/-- Character-list core of `datetime.date.fromisoformat` on its
documented `YYYY-MM-DD` format: exactly ten characters, digits in the
year, month and day positions, dashes at positions 4 and 7, and the
resulting numbers must form a valid calendar date; every other shape is
a parse failure (`ValueError` in Python, `none` here). -/
def parseISO : List Char → Option Date
  | [y1, y2, y3, y4, h1, m1, m2, h2, d1, d2] =>
    match digitVal? y1, digitVal? y2, digitVal? y3, digitVal? y4,
          digitVal? m1, digitVal? m2, digitVal? d1, digitVal? d2 with
    | some a, some b, some c, some e, some f, some g, some h, some i =>
      if h1 = '-' ∧ h2 = '-' then
        if 1 ≤ 1000 * a + 100 * b + 10 * c + e ∧ 1 ≤ 10 * f + g ∧ 10 * f + g ≤ 12 ∧
            1 ≤ 10 * h + i ∧
            10 * h + i ≤ daysInMonth (1000 * a + 100 * b + 10 * c + e) (10 * f + g) then
          some ⟨1000 * a + 100 * b + 10 * c + e, 10 * f + g, 10 * h + i⟩
        else none
      else none
    | _, _, _, _, _, _, _, _ => none
  | _ => none

/-- Embedding of `datetime.date.fromisoformat` on a string. -/
def fromisoformat (s : String) : Option Date :=
  parseISO s.data

/-- Two-digit zero-padded decimal rendering (for months and days). -/
def pad2 (n : Nat) : List Char :=
  [Nat.digitChar (n / 10 % 10), Nat.digitChar (n % 10)]

/-- Four-digit zero-padded decimal rendering (for years). -/
def pad4 (n : Nat) : List Char :=
  [Nat.digitChar (n / 1000 % 10), Nat.digitChar (n / 100 % 10),
   Nat.digitChar (n / 10 % 10), Nat.digitChar (n % 10)]

/-- The canonical ISO `YYYY-MM-DD` rendering of a date, the format
`date.isoformat` produces and `fromisoformat` consumes. -/
def dateToISO (d : Date) : String :=
  ⟨pad4 d.year ++ '-' :: pad2 d.month ++ '-' :: pad2 d.day⟩

/-- Python runtime errors surfaced by the embedded code. -/
inductive PyErr where
  | typeError (msg : String)
  | attributeError (msg : String)
  | valueError (msg : String)
deriving DecidableEq, Repr

/-- Python values flowing through the dynamically-typed spots of the
code (pydantic optional fields, SQLAlchemy constructor kwargs). -/
inductive PyVal where
  | vNone
  | vStr (s : String)
  | vDate (d : Date)
deriving DecidableEq, Repr

/-- Python truthiness for the values above: `None` and the empty string
are falsy, a non-empty string and any `date` are truthy. -/
def PyVal.truthy : PyVal → Bool
  | .vNone => false
  | .vStr s => !(s == "")
  | .vDate _ => true

/-- Coercion used when an optional string field is read. -/
def optStrVal : Option String → PyVal
  | none => .vNone
  | some s => .vStr s

/-- Coercion used when an optional date field is read. -/
def optDateVal : Option Date → PyVal
  | none => .vNone
  | some d => .vDate d

/-- Narrowing of a `PyVal` to the string stored in a non-nullable
string column (a non-string value never reaches a committed row). -/
def pyStr : PyVal → String
  | .vStr s => s
  | _ => ""

/-- Row of the `contacts` table (`src/database/models.py`), columns
`id`, `first_name` (String 25), `last_name` (String 50), `email`
(String 100), `phone_number` (String 15), `date_of_birth` (Date, not
null), `additional_data` (String 750).  The `user_id`/`user` columns
are never touched by the repository functions and are omitted. -/
structure Contact where
  id : Nat
  first_name : String
  last_name : String
  email : String
  phone_number : String
  date_of_birth : Date
  additional_data : String
deriving DecidableEq, Repr

/-- Declared column-length bounds of the `contacts` table. -/
def Contact.storable (c : Contact) : Bool :=
  c.first_name.length ≤ 25 && c.last_name.length ≤ 50 &&
    c.email.length ≤ 100 && c.phone_number.length ≤ 15 &&
    c.additional_data.length ≤ 750

/-- Validated create-input shape `ContactIn` (`src/schemas.py`). -/
structure ContactIn where
  first_name : String
  last_name : String
  email : String
  phone_number : String
  date_of_birth : Option Date
  additional_data : String
deriving DecidableEq, Repr

/-- Partial-update shape `ContactUpdate` (`src/schemas.py`): every
field optional.  Note the field spelled `lastname` (no underscore) in
the source. -/
structure ContactUpdate where
  first_name : Option String
  lastname : Option String
  email : Option String
  phone_number : Option String
  date_of_birth : Option Date
  additional_data : Option String
deriving DecidableEq, Repr

/-- The `check_date_format` pre-validator shared by `ContactIn` and
`ContactUpdate`: on a string input, the empty string maps to `None`,
otherwise `date.fromisoformat` is attempted and its `ValueError` is
re-raised with a fixed message. -/
def check_date_format (birthday_date : String) : Except PyErr (Option Date) :=
  if birthday_date == "" then .ok none
  else
    match fromisoformat birthday_date with
    | some d => .ok (some d)
    | none => .error (.valueError "Invalid date format. Required format: YYYY-MM-DD")

/-- SQL `LIKE` pattern matching over character lists: `%` matches any
(possibly empty) run of characters (the rest of the pattern must match
some suffix of the subject), `_` matches exactly one character, any
other pattern character matches itself; the pattern must cover the
whole subject string. -/
def likeMatch : List Char → List Char → Bool
  | [], s => s.isEmpty
  | p :: ps, s =>
    if p = '%' then
      s.tails.any (fun t => likeMatch ps t)
    else
      match s with
      | [] => false
      | c :: t => (p = '_' || p = c) && likeMatch ps t

/-- Lower-cased character list of a string, the case folding `ilike`
applies to both operands. -/
def lc (s : String) : List Char :=
  s.data.map Char.toLower

/-- SQLAlchemy `column.ilike(pattern)`: case-insensitive `LIKE`. -/
def ilike (value pattern : String) : Bool :=
  likeMatch (lc pattern) (lc value)

/-- Repository `get_contacts(skip, limit, db)`:
`db.query(Contact).offset(skip).limit(limit).all()`. -/
def get_contacts (skip limit : Nat) (db : List Contact) : List Contact :=
  (db.drop skip).take limit

/-- Repository `get_contact(contact_id, db)`:
`db.query(Contact).filter(Contact.id == contact_id).first()`. -/
def get_contact (contact_id : Nat) (db : List Contact) : Option Contact :=
  db.find? (fun c => c.id == contact_id)

/-- Repository `find_contact(keyword, skip, limit, db)`: builds the
pattern `word = f"%{keyword}%"` and filters on
`first_name.ilike(word) | last_name.ilike(word) | email.ilike(word)`,
then paginates. -/
def find_contact (keyword : String) (skip limit : Nat) (db : List Contact) : List Contact :=
  let word := "%" ++ keyword ++ "%"
  ((db.filter (fun c =>
    ilike c.first_name word || ilike c.last_name word || ilike c.email word)).drop skip).take limit

/-- Attribute names defined on the declarative `Contact` model class
(columns plus the `user` relationship); the declarative constructor
accepts exactly these as keyword arguments. -/
def contactAttrNames : List String :=
  ["id", "first_name", "last_name", "email", "phone_number",
   "date_of_birth", "additional_data", "user_id", "user"]

/-- Embedding of the SQLAlchemy declarative default constructor
`Contact(**kwargs)`: it walks the keyword arguments in order and raises
`TypeError` at the first name that is not an attribute of the class;
otherwise each keyword sets the named attribute. -/
def declarativeInit (kwargs : List (String × PyVal)) :
    Except PyErr (List (String × PyVal)) :=
  match kwargs.find? (fun kv => !(contactAttrNames.contains kv.1)) with
  | some kv => .error (.typeError (kv.1 ++ " is an invalid keyword argument for Contact"))
  | none => .ok kwargs

/-- Id the store assigns to a freshly inserted row (autoincrement
primary key: larger than every existing id). -/
def nextId (db : List Contact) : Nat :=
  (db.map Contact.id).foldr max 0 + 1

/-- String attribute as set by the constructor kwargs, the column
default (`None`, narrowed to `""`) when the kwarg is missing. -/
def kwargStr (kwargs : List (String × PyVal)) (k : String) : String :=
  pyStr ((kwargs.lookup k).getD .vNone)

/-- Date attribute as set by the constructor kwargs; the fallback
`0001-01-01` stands for an unset non-nullable column and is never
reached by the code paths proved below. -/
def kwargDate (kwargs : List (String × PyVal)) (k : String) : Date :=
  match kwargs.lookup k with
  | some (.vDate d) => d
  | _ => ⟨1, 1, 1⟩

/-- Repository `create_contact(body, db)`: constructs
`Contact(name=body.first_name, lastname=body.last_name,
email=body.email, phone=body.phone_number, birthday=body.date_of_birth,
notes=body.additional_data)`, then `add`/`commit`/`refresh` and returns
the contact.  The keyword names are passed exactly as in the source. -/
def create_contact (body : ContactIn) (db : List Contact) :
    Except PyErr (List Contact × Contact) := do
  let kwargs : List (String × PyVal) :=
    [("name", .vStr body.first_name), ("lastname", .vStr body.last_name),
     ("email", .vStr body.email), ("phone", .vStr body.phone_number),
     ("birthday", optDateVal body.date_of_birth), ("notes", .vStr body.additional_data)]
  let attrs ← declarativeInit kwargs
  let contact : Contact :=
    { id := nextId db
      first_name := kwargStr attrs "first_name"
      last_name := kwargStr attrs "last_name"
      email := kwargStr attrs "email"
      phone_number := kwargStr attrs "phone_number"
      date_of_birth := kwargDate attrs "date_of_birth"
      additional_data := kwargStr attrs "additional_data" }
  pure (db ++ [contact], contact)

/-- Repository `remove_contact(contact_id, db)`: finds the first row
with the id, deletes it (and commits) when present, and returns it;
returns the unchanged store and `None` when absent. -/
def remove_contact (contact_id : Nat) (db : List Contact) :
    List Contact × Option Contact :=
  match db.find? (fun c => c.id == contact_id) with
  | none => (db, none)
  | some contact => (db.eraseP (fun c => c.id == contact_id), some contact)

/-- Attribute access `body.<attr>` on a `ContactUpdate` pydantic model:
the six declared fields resolve to their values, any other name raises
`AttributeError`. -/
def ContactUpdate.getattr (b : ContactUpdate) (attr : String) : Except PyErr PyVal :=
  if attr == "first_name" then .ok (optStrVal b.first_name)
  else if attr == "lastname" then .ok (optStrVal b.lastname)
  else if attr == "email" then .ok (optStrVal b.email)
  else if attr == "phone_number" then .ok (optStrVal b.phone_number)
  else if attr == "date_of_birth" then .ok (optDateVal b.date_of_birth)
  else if attr == "additional_data" then .ok (optStrVal b.additional_data)
  else .error (.attributeError ("ContactUpdate object has no attribute " ++ attr))

/-- Date value written by `contact.date_of_birth = body.date_of_birth`
(the guard has already established the source value is truthy). -/
def pyDate (v : Option Date) (old : Date) : Date :=
  match v with
  | some d => d
  | none => old

/-- Repository `update_contact(contact_id, body, db)`: returns the
unchanged store and `None` when the id is absent; otherwise mirrors the
source line by line — each guard reads `body.name`, `body.lastname`,
`body.email`, `body.phone`, `body.birthday`, `body.notes` (attribute
access that can raise), and on a truthy value assigns the corresponding
column from the body field named in the source. -/
def update_contact (contact_id : Nat) (body : ContactUpdate) (db : List Contact) :
    Except PyErr (List Contact × Option Contact) :=
  match db.find? (fun c => c.id == contact_id) with
  | none => .ok (db, none)
  | some contact => do
    let v1 ← body.getattr "name"
    let contact := if v1.truthy then { contact with first_name := pyStr (optStrVal body.first_name) } else contact
    let v2 ← body.getattr "lastname"
    let contact := if v2.truthy then { contact with last_name := pyStr (optStrVal body.lastname) } else contact
    let v3 ← body.getattr "email"
    let contact := if v3.truthy then { contact with email := pyStr (optStrVal body.email) } else contact
    let v4 ← body.getattr "phone"
    let contact := if v4.truthy then { contact with phone_number := pyStr (optStrVal body.phone_number) } else contact
    let v5 ← body.getattr "birthday"
    let contact := if v5.truthy then { contact with date_of_birth := pyDate body.date_of_birth contact.date_of_birth } else contact
    let v6 ← body.getattr "notes"
    let contact := if v6.truthy then { contact with additional_data := pyStr (optStrVal body.additional_data) } else contact
    pure (db.map (fun c => if c.id == contact_id then contact else c), some contact)

/-- One day later, with month and year rollover per the calendar. -/
def nextDay (d : Date) : Date :=
  if d.day < daysInMonth d.year d.month then ⟨d.year, d.month, d.day + 1⟩
  else if d.month < 12 then ⟨d.year, d.month + 1, 1⟩
  else ⟨d.year + 1, 1, 1⟩

/-- `d + timedelta(days=n)`. -/
def addDays (d : Date) : Nat → Date
  | 0 => d
  | n + 1 => nextDay (addDays d n)

/-- Filter of `get_contacts_birthday_for_next_week`, exactly the three
`and_` disjuncts of the source `or_` (months extracted from `today`,
`next_week` and the stored birth date). -/
def birthdayFilter (today next_week : Date) (c : Contact) : Bool :=
  (today.month == next_week.month &&
     c.date_of_birth.month == today.month &&
     c.date_of_birth.day ≥ today.day &&
     c.date_of_birth.day ≤ next_week.day) ||
  (today.month != next_week.month &&
     c.date_of_birth.month == today.month &&
     c.date_of_birth.day ≥ today.day) ||
  (today.month != next_week.month &&
     c.date_of_birth.month == next_week.month &&
     c.date_of_birth.day ≤ next_week.day)

/-- Lexicographic order on dates (the `ORDER BY date_of_birth` sort key). -/
def dateLe (a b : Date) : Bool :=
  a.year < b.year ||
    (a.year == b.year &&
      (a.month < b.month || (a.month == b.month && a.day ≤ b.day)))

/-- Repository `get_contacts_birthday_for_next_week(skip, limit, db)`,
parameterised by `today` (the source reads `datetime.now().date()`):
`next_week = today + timedelta(days=7)`, filter by `birthdayFilter`,
order by `date_of_birth` ascending, then paginate. -/
def get_contacts_birthday_for_next_week (today : Date) (skip limit : Nat)
    (db : List Contact) : List Contact :=
  let next_week := addDays today 7
  ((((db.filter (birthdayFilter today next_week)).mergeSort
      (fun a b => dateLe a.date_of_birth b.date_of_birth)).drop skip).take limit)

/-- Unvalidated payload for the create-input shape: every field as the
raw value supplied by the caller (the birth date as a string, `""`
standing for an omitted optional date). -/
structure RawContactIn where
  first_name : String
  last_name : String
  email : String
  phone_number : String
  date_of_birth : String
  additional_data : String
deriving DecidableEq, Repr

/-- Pydantic validation of `ContactIn`: `Field(max_length=…)` bounds of
25/50/100/15 on the four required strings, the `check_date_format`
pre-validator on the date, and `Field(max_length=500)` on
`additional_data`; validation succeeds exactly when every field passes. -/
def ContactIn.validate (r : RawContactIn) : Except PyErr ContactIn :=
  if !(r.first_name.length ≤ 25) then .error (.valueError "first_name: ensure this value has at most 25 characters")
  else if !(r.last_name.length ≤ 50) then .error (.valueError "last_name: ensure this value has at most 50 characters")
  else if !(r.email.length ≤ 100) then .error (.valueError "email: ensure this value has at most 100 characters")
  else if !(r.phone_number.length ≤ 15) then .error (.valueError "phone_number: ensure this value has at most 15 characters")
  else
    match check_date_format r.date_of_birth with
    | .error e => .error e
    | .ok dob =>
      if !(r.additional_data.length ≤ 500) then .error (.valueError "additional_data: ensure this value has at most 500 characters")
      else .ok ⟨r.first_name, r.last_name, r.email, r.phone_number, dob, r.additional_data⟩

/-- Output shape `ContactOut`: `ContactIn`'s fields and constraints
plus the assigned id. -/
structure ContactOut where
  id : Nat
  first_name : String
  last_name : String
  email : String
  phone_number : String
  date_of_birth : Option Date
  additional_data : String
deriving DecidableEq, Repr

/-- Serialization of a stored row through `ContactOut` (pydantic
`orm_mode` / `from_orm`): the inherited `ContactIn` field constraints
are re-checked against the row's column values (the stored `date`
passes the pre-validator unchanged since it is not a string). -/
def ContactOut.from_orm (c : Contact) : Except PyErr ContactOut :=
  if !(c.first_name.length ≤ 25) then .error (.valueError "first_name: ensure this value has at most 25 characters")
  else if !(c.last_name.length ≤ 50) then .error (.valueError "last_name: ensure this value has at most 50 characters")
  else if !(c.email.length ≤ 100) then .error (.valueError "email: ensure this value has at most 100 characters")
  else if !(c.phone_number.length ≤ 15) then .error (.valueError "phone_number: ensure this value has at most 15 characters")
  else if !(c.additional_data.length ≤ 500) then .error (.valueError "additional_data: ensure this value has at most 500 characters")
  else .ok ⟨c.id, c.first_name, c.last_name, c.email, c.phone_number, some c.date_of_birth, c.additional_data⟩

/-! Spec-side definitions, written from the specification's wording and
compared against the embedded code in the theorems below. -/

/-- Birthday-window membership as the specification words it: with
`today` and `next` the window endpoints and `dob` a birth date (year
ignored) — if both endpoints share a calendar month, the birth month
must equal it and the birth day lie between the endpoint days
inclusive; otherwise the birth month/day must be at or after `today`'s
in `today`'s month, or at or before `next`'s in `next`'s month. -/
def birthdayInWindowSpec (today next dob : Date) : Bool :=
  if today.month == next.month then
    dob.month == today.month && today.day ≤ dob.day && dob.day ≤ next.day
  else
    (dob.month == today.month && today.day ≤ dob.day) ||
    (dob.month == next.month && dob.day ≤ next.day)

/-- Literal list-prefix test. -/
def isPre : List Char → List Char → Bool
  | [], _ => true
  | _ :: _, [] => false
  | a :: as, b :: bs => a == b && isPre as bs

/-- Literal contiguous-sublist (substring) test. -/
def isSub (n : List Char) : List Char → Bool
  | [] => n.isEmpty
  | c :: t => isPre n (c :: t) || isSub n t

/-- Case-insensitive substring containment as the specification words
it: `s` contains `keyword` after lower-casing both. -/
def containsCI (keyword s : String) : Bool :=
  isSub (lc keyword) (lc s)

/-! Concrete sample data used by witnesses and examples. -/

/-- Sample stored contact. -/
def sampleContact : Contact :=
  ⟨1, "Ann", "Lee", "ann@example.com", "123456789", ⟨1990, 4, 12⟩, "friend"⟩

/-- Second sample stored contact, with a different id. -/
def otherContact : Contact :=
  ⟨2, "Bob", "Ray", "bob@example.com", "987654321", ⟨1985, 11, 3⟩, "colleague"⟩

/-- Update payload with every field absent. -/
def emptyUpdate : ContactUpdate := ⟨none, none, none, none, none, none⟩

/-- Five seeded contacts, in insertion order, for the pagination example. -/
def seeded : List Contact :=
  [⟨1, "A1", "B1", "e1@x", "1", ⟨1990, 1, 1⟩, ""⟩,
   ⟨2, "A2", "B2", "e2@x", "2", ⟨1991, 2, 2⟩, ""⟩,
   ⟨3, "A3", "B3", "e3@x", "3", ⟨1992, 3, 3⟩, ""⟩,
   ⟨4, "A4", "B4", "e4@x", "4", ⟨1993, 4, 4⟩, ""⟩,
   ⟨5, "A5", "B5", "e5@x", "5", ⟨1994, 5, 5⟩, ""⟩]

/-! Theorems -/

/-- C1 (code_bug evidence): `create_contact` never inserts a row — for
every validated body and every store it raises
`TypeError: 'name' is an invalid keyword argument for 'Contact'`,
because the constructor keywords (`name`, `lastname`, `phone`,
`birthday`, `notes`) do not match the model's column names
(`first_name`, `last_name`, `phone_number`, `date_of_birth`,
`additional_data`), contradicting the claim that `create(x)` inserts
one row equal to `x` and returns the persisted entity. -/
theorem create_contact_always_raises (body : ContactIn) (db : List Contact) :
    create_contact body db =
      .error (.typeError "name is an invalid keyword argument for Contact") := rfl

/-- C2 (code_bug evidence): whenever a contact with the requested id is
stored, `update_contact` raises
`AttributeError: 'ContactUpdate' object has no attribute 'name'` on its
first guard (`if body.name:`) — even for the empty partial update — so
no partial update ever succeeds, contradicting the claim that present
non-empty fields are overwritten and the updated entity returned. -/
theorem update_contact_raises_on_found (contact_id : Nat) (body : ContactUpdate)
    (db : List Contact) (h : ∃ c ∈ db, c.id = contact_id) :
    update_contact contact_id body db =
      .error (.attributeError "ContactUpdate object has no attribute name") := by
  obtain ⟨c, hc, hid⟩ := h
  have hsome : (db.find? (fun c => c.id == contact_id)).isSome :=
    List.find?_isSome.mpr ⟨c, hc, by simp [hid]⟩
  obtain ⟨c0, hc0⟩ := Option.isSome_iff_exists.mp hsome
  simp only [update_contact, hc0]
  rfl

/-- Closed instance of `update_contact_raises_on_found`: updating the
stored contact 1 with the empty partial update raises AttributeError. -/
theorem update_contact_raises_on_found_witness :
    update_contact 1 emptyUpdate [sampleContact] =
      .error (.attributeError "ContactUpdate object has no attribute name") :=
  update_contact_raises_on_found 1 emptyUpdate [sampleContact]
    ⟨sampleContact, by decide, by decide⟩

/-- C6: for an id no stored contact carries, `get_contact` returns
`None`, `remove_contact` leaves the store unchanged and returns `None`,
and `update_contact` returns `None` — all without raising. -/
theorem not_found_absent (contact_id : Nat) (body : ContactUpdate) (db : List Contact)
    (h : ∀ c ∈ db, c.id ≠ contact_id) :
    get_contact contact_id db = none ∧
    remove_contact contact_id db = (db, none) ∧
    update_contact contact_id body db = .ok (db, none) := by
  have hf : db.find? (fun c => c.id == contact_id) = none :=
    List.find?_eq_none.mpr (fun c hc => by simpa using h c hc)
  exact ⟨hf, by simp [remove_contact, hf], by simp [update_contact, hf]⟩

/-- Closed instance of `not_found_absent` at id 3 over a two-contact store. -/
theorem not_found_absent_witness :
    get_contact 3 [sampleContact, otherContact] = none ∧
    remove_contact 3 [sampleContact, otherContact] = ([sampleContact, otherContact], none) ∧
    update_contact 3 emptyUpdate [sampleContact, otherContact] =
      .ok ([sampleContact, otherContact], none) :=
  not_found_absent 3 emptyUpdate [sampleContact, otherContact] (by decide)

/-- C9: `get_contacts skip limit` returns the contiguous subsequence
of the store obtained by skipping `skip` rows and taking at most
`limit` of the rest — its length is `min limit (length - skip)` and its
`i`-th element is the store's `(skip+i)`-th element — and over the five
seeded contacts `skip=2, limit=2` yields exactly items 3 and 4 in
insertion order. -/
theorem get_contacts_paginates (db : List Contact) (skip limit : Nat) :
    (get_contacts skip limit db).length = min limit (db.length - skip) ∧
    (∀ i : Nat, (get_contacts skip limit db)[i]? =
      if i < limit then db[skip + i]? else none) ∧
    get_contacts 2 2 seeded = [⟨3, "A3", "B3", "e3@x", "3", ⟨1992, 3, 3⟩, ""⟩,
      ⟨4, "A4", "B4", "e4@x", "4", ⟨1993, 4, 4⟩, ""⟩] := by
  refine ⟨?_, ?_, by decide⟩
  · simp [get_contacts]
  · intro i
    simp [get_contacts, List.getElem?_take, List.getElem?_drop]

/-- C5: with pairwise-distinct stored ids, `remove_contact id` deletes
the stored contact with that id (a subsequent `get_contact id` returns
`None`) and returns the deleted entity (exactly what `get_contact`
returned before); on an unknown id it returns the unchanged store and
`None`. -/
theorem remove_contact_deletes (contact_id : Nat) (db : List Contact)
    (huniq : (db.map Contact.id).Nodup) :
    get_contact contact_id (remove_contact contact_id db).1 = none ∧
    (remove_contact contact_id db).2 = get_contact contact_id db ∧
    (get_contact contact_id db = none → remove_contact contact_id db = (db, none)) := by
  cases hf : db.find? (fun c => c.id == contact_id) with
  | none =>
    refine ⟨?_, ?_, fun _ => ?_⟩ <;> simp [remove_contact, get_contact, hf]
  | some c =>
    refine ⟨?_, by simp [remove_contact, get_contact, hf], ?_⟩
    · have herase : ∀ (l : List Contact), (l.map Contact.id).Nodup →
          (l.eraseP (fun c => c.id == contact_id)).find? (fun c => c.id == contact_id) = none := by
        intro l
        induction l with
        | nil => intro _; rfl
        | cons a t ih =>
          intro hnd
          rw [List.map_cons, List.nodup_cons] at hnd
          by_cases ha : a.id = contact_id
          · rw [List.eraseP_cons, show (a.id == contact_id) = true by simp [ha], cond_true]
            refine List.find?_eq_none.mpr ?_
            intro x hx
            simp only [beq_iff_eq]
            intro hxid
            have hmem : x.id ∈ List.map Contact.id t := List.mem_map_of_mem Contact.id hx
            rw [hxid, ← ha] at hmem
            exact hnd.1 hmem
          · rw [List.eraseP_cons, show (a.id == contact_id) = false by simp [ha], cond_false]
            rw [List.find?_cons_of_neg _ (by simp [ha])]
            exact ih hnd.2
      simpa [remove_contact, get_contact, hf] using herase db huniq
    · intro hnone
      simp [get_contact, hf] at hnone

/-- Closed instance of `remove_contact_deletes` at id 1 over a
two-contact store with distinct ids. -/
theorem remove_contact_deletes_witness :
    get_contact 1 (remove_contact 1 [sampleContact, otherContact]).1 = none ∧
    (remove_contact 1 [sampleContact, otherContact]).2 =
      get_contact 1 [sampleContact, otherContact] ∧
    (get_contact 1 [sampleContact, otherContact] = none →
      remove_contact 1 [sampleContact, otherContact] = ([sampleContact, otherContact], none)) :=
  remove_contact_deletes 1 [sampleContact, otherContact] (by decide)

/-- Pointwise agreement of the query's three-disjunct filter with the
specification's same-month / month-boundary case split. -/
theorem birthdayFilter_eq_spec (today next : Date) (c : Contact) :
    birthdayFilter today next c = birthdayInWindowSpec today next c.date_of_birth := by
  unfold birthdayFilter birthdayInWindowSpec
  by_cases h : today.month = next.month
  · simp [h, bne]
  · have hb : (today.month == next.month) = false := beq_eq_false_iff_ne.mpr h
    simp [hb, bne]

/-- C3: for every current date `today` (with `next = today + 7 days`),
`get_contacts_birthday_for_next_week` returns, ordered by birth date
ascending and paginated by `skip`/`limit`, exactly the stored contacts
whose birth date (year ignored) satisfies the specification's window
condition; concretely, `today = 2024-01-28` gives `next = 2024-02-04`,
a birth date of 01-30 is inside the window, and 02-05 and 01-20 are
outside. -/
theorem birthday_week_filters (today : Date) (skip limit : Nat) (db : List Contact) :
    get_contacts_birthday_for_next_week today skip limit db =
      (((db.filter (fun c =>
          birthdayInWindowSpec today (addDays today 7) c.date_of_birth)).mergeSort
        (fun a b => dateLe a.date_of_birth b.date_of_birth)).drop skip).take limit ∧
    addDays ⟨2024, 1, 28⟩ 7 = ⟨2024, 2, 4⟩ ∧
    birthdayInWindowSpec ⟨2024, 1, 28⟩ (addDays ⟨2024, 1, 28⟩ 7) ⟨1990, 1, 30⟩ = true ∧
    birthdayInWindowSpec ⟨2024, 1, 28⟩ (addDays ⟨2024, 1, 28⟩ 7) ⟨1985, 2, 5⟩ = false ∧
    birthdayInWindowSpec ⟨2024, 1, 28⟩ (addDays ⟨2024, 1, 28⟩ 7) ⟨2000, 1, 20⟩ = false := by
  refine ⟨?_, by decide, by decide, by decide, by decide⟩
  have hfil : db.filter (birthdayFilter today (addDays today 7)) =
      db.filter (fun c => birthdayInWindowSpec today (addDays today 7) c.date_of_birth) :=
    List.filter_congr (fun c _ => birthdayFilter_eq_spec today (addDays today 7) c)
  simp only [get_contacts_birthday_for_next_week, hfil]

/-- Stored contact with 501 characters of notes: within the 750-column
bound but beyond the output shape's inherited 500 bound. -/
def longNotesContact : Contact :=
  ⟨9, "Ann", "Lee", "ann@example.com", "123456789", ⟨1990, 1, 1⟩, ⟨List.replicate 501 'x'⟩⟩

/-- C10: a stored contact whose notes length exceeds the inherited
500-character `ContactIn` bound — in particular any length in 501..750,
which the 750-character storage column admits — fails validation when
serialized through `ContactOut`, so it cannot be returned through the
output shape. -/
theorem contactOut_rejects_long_notes (c : Contact)
    (hlo : 500 < c.additional_data.length) (hhi : c.additional_data.length ≤ 750) :
    ∃ msg, ContactOut.from_orm c = .error (.valueError msg) := by
  unfold ContactOut.from_orm
  split_ifs with h1 h2 h3 h4 h5
  case _ => exact ⟨_, rfl⟩
  case _ => exact ⟨_, rfl⟩
  case _ => exact ⟨_, rfl⟩
  case _ => exact ⟨_, rfl⟩
  case _ => exact ⟨_, rfl⟩
  case _ => simp at h5; omega

set_option maxRecDepth 4000 in
/-- Closed instance of `contactOut_rejects_long_notes` on the 501-note
contact. -/
theorem contactOut_rejects_long_notes_witness :
    ∃ msg, ContactOut.from_orm longNotesContact = .error (.valueError msg) :=
  contactOut_rejects_long_notes longNotesContact (by decide) (by decide)

/-- Raw create input whose notes are 501 characters long and whose
other fields are well within bounds. -/
def rawLongNotes : RawContactIn :=
  ⟨"Ann", "Lee", "ann@example.com", "123456789", "", ⟨List.replicate 501 'x'⟩⟩

set_option maxRecDepth 8000 in
/-- C4 (counterexample to the claim as stated): this input respects
every length bound of the data model — notes are 501 ≤ 750 characters —
yet the create input shape rejects it, because `ContactIn` caps
`additional_data` at 500 characters, not the column's 750. -/
theorem contactIn_claim_counterexample :
    rawLongNotes.first_name.length ≤ 25 ∧ rawLongNotes.last_name.length ≤ 50 ∧
    rawLongNotes.email.length ≤ 100 ∧ rawLongNotes.phone_number.length ≤ 15 ∧
    rawLongNotes.additional_data.length ≤ 750 ∧
    ContactIn.validate rawLongNotes =
      .error (.valueError "additional_data: ensure this value has at most 500 characters") := by
  refine ⟨by decide, by decide, by decide, by decide, by decide, ?_⟩
  rfl

/-- C4 (amended): provided the birth-date string itself validates, the
create input shape accepts the input exactly when first name ≤ 25,
last name ≤ 50, email ≤ 100, phone ≤ 15 and notes ≤ 500 characters
(the shape's own bound, tighter than the storage column's 750); any
longer value is rejected with a validation error before any store
access. -/
theorem contactIn_length_bounds (r : RawContactIn)
    (hd : ∃ od, check_date_format r.date_of_birth = .ok od) :
    (∃ ci, ContactIn.validate r = .ok ci) ↔
      (r.first_name.length ≤ 25 ∧ r.last_name.length ≤ 50 ∧ r.email.length ≤ 100 ∧
       r.phone_number.length ≤ 15 ∧ r.additional_data.length ≤ 500) := by
  obtain ⟨od, hod⟩ := hd
  unfold ContactIn.validate
  rw [hod]
  split_ifs with h1 h2 h3 h4 h5 <;> simp_all

/-- Closed instance of `contactIn_length_bounds`: an in-bounds input is
accepted. -/
theorem contactIn_length_bounds_witness :
    ∃ ci, ContactIn.validate
      ⟨"Ann", "Lee", "ann@example.com", "123456789", "", "a note"⟩ = .ok ci :=
  (contactIn_length_bounds
    ⟨"Ann", "Lee", "ann@example.com", "123456789", "", "a note"⟩
    ⟨none, rfl⟩).mpr (by decide)

/-- Value of `Char.ofNat` on a valid code point. -/
theorem char_toNat_ofNat (n : Nat) (h : n.isValidChar) : (Char.ofNat n).toNat = n := by
  unfold Char.ofNat
  rw [dif_pos h]
  unfold Char.ofNatAux Char.toNat
  rfl

/-- Lower-casing maps only uppercase letters elsewhere, so a character
that lower-cases to `%` already was `%`. -/
theorem toLower_eq_percent {c : Char} (h : Char.toLower c = '%') : c = '%' := by
  simp only [Char.toLower] at h
  by_cases hr : c.toNat ≥ 65 ∧ c.toNat ≤ 90
  · rw [if_pos hr] at h
    exfalso
    have h2 := congrArg Char.toNat h
    rw [char_toNat_ofNat (c.toNat + 32) (Or.inl (by omega))] at h2
    have h3 : ('%' : Char).toNat = 37 := by decide
    omega
  · rwa [if_neg hr] at h

/-- A character that lower-cases to `_` already was `_`. -/
theorem toLower_eq_underscore {c : Char} (h : Char.toLower c = '_') : c = '_' := by
  simp only [Char.toLower] at h
  by_cases hr : c.toNat ≥ 65 ∧ c.toNat ≤ 90
  · rw [if_pos hr] at h
    exfalso
    have h2 := congrArg Char.toNat h
    rw [char_toNat_ofNat (c.toNat + 32) (Or.inl (by omega))] at h2
    have h3 : ('_' : Char).toNat = 95 := by decide
    omega
  · rwa [if_neg hr] at h

/-- Lower-casing distributes over string concatenation. -/
theorem lc_append (s t : String) : lc (s ++ t) = lc s ++ lc t := by
  simp [lc, String.data_append]

/-- Characterization of the literal-prefix test. -/
theorem isPre_iff (n h : List Char) : isPre n h = true ↔ ∃ t, h = n ++ t := by
  induction n generalizing h with
  | nil => simp [isPre]
  | cons a as ih =>
    cases h with
    | nil => simp [isPre]
    | cons b bs =>
      simp only [isPre, Bool.and_eq_true, beq_iff_eq, ih, List.cons_append, List.cons.injEq]
      constructor
      · rintro ⟨hab, t, ht⟩
        exact ⟨t, hab.symm, ht⟩
      · rintro ⟨t, hab, ht⟩
        exact ⟨hab.symm, t, ht⟩

/-- Characterization of the literal-substring test. -/
theorem isSub_iff (n h : List Char) : isSub n h = true ↔ ∃ l r, h = l ++ n ++ r := by
  induction h with
  | nil =>
    cases n <;> simp [isSub, List.isEmpty]
  | cons c t ih =>
    simp only [isSub, Bool.or_eq_true, isPre_iff, ih]
    constructor
    · rintro (⟨r, hr⟩ | ⟨l, r, hlr⟩)
      · exact ⟨[], r, by simpa using hr⟩
      · exact ⟨c :: l, r, by simp [hlr]⟩
    · rintro ⟨l, r, hlr⟩
      cases l with
      | nil => exact Or.inl ⟨r, by simpa using hlr⟩
      | cons x xs =>
        injection hlr with h1 h2
        exact Or.inr ⟨xs, r, h2⟩

/-- After a `%`, the rest of the pattern must match some suffix. -/
theorem likeMatch_percent (ps s : List Char) :
    likeMatch ('%' :: ps) s = true ↔ ∃ t, t <:+ s ∧ likeMatch ps t = true := by
  simp [likeMatch, List.any_eq_true, List.mem_tails]

/-- A wildcard-free pattern followed by `%` matches exactly the strings
it literally starts. -/
theorem likeMatch_lit_percent (p : List Char) (hp : ∀ c ∈ p, c ≠ '%' ∧ c ≠ '_')
    (s : List Char) : likeMatch (p ++ ['%']) s = true ↔ ∃ t, s = p ++ t := by
  induction p generalizing s with
  | nil =>
    simp only [List.nil_append]
    constructor
    · intro _
      exact ⟨s, rfl⟩
    · intro _
      exact (likeMatch_percent [] s).mpr ⟨[], ⟨s, by simp⟩, rfl⟩
  | cons a as ih =>
    have ha := hp a (List.mem_cons_self a as)
    have has : ∀ c ∈ as, c ≠ '%' ∧ c ≠ '_' := fun c hc => hp c (List.mem_cons_of_mem a hc)
    cases s with
    | nil =>
      simp [likeMatch, ha.1]
    | cons c t =>
      simp only [List.cons_append, likeMatch, if_neg ha.1, List.append_eq, Bool.and_eq_true,
        Bool.or_eq_true, decide_eq_true_eq, ih has, List.cons.injEq]
      constructor
      · rintro ⟨(h1 | h1), r, hr⟩
        · exact absurd h1 ha.2
        · exact ⟨r, h1.symm, hr⟩
      · rintro ⟨r, hac, hr⟩
        exact ⟨Or.inr hac.symm, r, hr⟩

/-- Core of C7: for a wildcard-free keyword, the SQL pattern
`%keyword%` matches a subject exactly when the keyword is a contiguous
substring of it. -/
theorem likeMatch_wrap (kw : List Char) (hkw : ∀ c ∈ kw, c ≠ '%' ∧ c ≠ '_')
    (s : List Char) : likeMatch ('%' :: (kw ++ ['%'])) s = isSub kw s := by
  rw [Bool.eq_iff_iff, likeMatch_percent, isSub_iff]
  constructor
  · rintro ⟨t, ⟨l, hl⟩, hm⟩
    obtain ⟨r, hr⟩ := (likeMatch_lit_percent kw hkw t).mp hm
    exact ⟨l, r, by rw [← hl, hr, List.append_assoc]⟩
  · rintro ⟨l, r, hlr⟩
    refine ⟨kw ++ r, ⟨l, ?_⟩, (likeMatch_lit_percent kw hkw _).mpr ⟨r, rfl⟩⟩
    rw [hlr, List.append_assoc]

/-- String-level consequence: `field.ilike(f"%{keyword}%")` agrees with
case-insensitive substring containment for wildcard-free keywords. -/
theorem ilike_substring (field keyword : String)
    (hkw : ∀ c ∈ keyword.data, c ≠ '%' ∧ c ≠ '_') :
    ilike field ("%" ++ keyword ++ "%") = containsCI keyword field := by
  unfold ilike containsCI
  have hdata : lc ("%" ++ keyword ++ "%") = '%' :: (lc keyword ++ ['%']) := by
    rw [lc_append, lc_append]
    show ['%'] ++ lc keyword ++ ['%'] = _
    simp
  rw [hdata]
  refine likeMatch_wrap (lc keyword) ?_ (lc field)
  intro c hc
  obtain ⟨c0, hc0, rfl⟩ := List.mem_map.mp hc
  exact ⟨fun h => (hkw c0 hc0).1 (toLower_eq_percent h),
         fun h => (hkw c0 hc0).2 (toLower_eq_underscore h)⟩

/-- C7 (amended): for every keyword free of the SQL wildcard characters
`%` and `_`, `find_contact` returns exactly the paginated contacts
whose first name, last name, or email contains the keyword as a
case-insensitive substring, OR-combined; `"smith"` matches `"Smith"`
and does not match `"Jones"`. -/
theorem find_contact_substring (keyword : String) (skip limit : Nat) (db : List Contact)
    (hkw : ∀ c ∈ keyword.data, c ≠ '%' ∧ c ≠ '_') :
    find_contact keyword skip limit db =
      ((db.filter (fun c => containsCI keyword c.first_name ||
          containsCI keyword c.last_name || containsCI keyword c.email)).drop skip).take limit ∧
    containsCI "smith" "Smith" = true ∧ containsCI "smith" "Jones" = false := by
  refine ⟨?_, by decide, by decide⟩
  have hfil : db.filter (fun c =>
        ilike c.first_name ("%" ++ keyword ++ "%") ||
        ilike c.last_name ("%" ++ keyword ++ "%") ||
        ilike c.email ("%" ++ keyword ++ "%")) =
      db.filter (fun c => containsCI keyword c.first_name ||
        containsCI keyword c.last_name || containsCI keyword c.email) :=
    List.filter_congr (fun c _ => by
      rw [ilike_substring c.first_name keyword hkw, ilike_substring c.last_name keyword hkw,
        ilike_substring c.email keyword hkw])
  simp only [find_contact, hfil]

/-- Closed instance of `find_contact_substring` on keyword `"smith"`
over a store holding a Smith and a Jones. -/
theorem find_contact_substring_witness :
    find_contact "smith" 0 10 [⟨1, "John", "Smith", "js@x", "1", ⟨1980, 1, 1⟩, ""⟩,
        ⟨2, "Ann", "Jones", "aj@x", "2", ⟨1981, 2, 2⟩, ""⟩] =
      (([⟨1, "John", "Smith", "js@x", "1", ⟨1980, 1, 1⟩, ""⟩,
         ⟨2, "Ann", "Jones", "aj@x", "2", ⟨1981, 2, 2⟩, ""⟩].filter (fun c =>
          containsCI "smith" c.first_name ||
          containsCI "smith" c.last_name || containsCI "smith" c.email)).drop 0).take 10 ∧
    containsCI "smith" "Smith" = true ∧ containsCI "smith" "Jones" = false :=
  find_contact_substring "smith" 0 10
    [⟨1, "John", "Smith", "js@x", "1", ⟨1980, 1, 1⟩, ""⟩,
     ⟨2, "Ann", "Jones", "aj@x", "2", ⟨1981, 2, 2⟩, ""⟩] (by decide)

/-- Contact with one-character fields, none containing `_`. -/
def underscoreContact : Contact := ⟨7, "a", "b", "c", "1", ⟨1990, 1, 1⟩, ""⟩

/-- C7 (counterexample to the claim as stated): with keyword `"_"` the
query returns a contact although none of its three searched fields
contains `"_"` as a substring — the unescaped keyword is interpolated
into the `LIKE` pattern, so `_` acts as a single-character wildcard. -/
theorem find_contact_claim_counterexample :
    find_contact "_" 0 10 [underscoreContact] = [underscoreContact] ∧
    containsCI "_" underscoreContact.first_name = false ∧
    containsCI "_" underscoreContact.last_name = false ∧
    containsCI "_" underscoreContact.email = false := by
  decide

/-- Digit characters round-trip through `digitVal?`. -/
theorem digitVal_digitChar {n : Nat} (h : n < 10) : digitVal? (Nat.digitChar n) = some n := by
  interval_cases n <;> decide

/-- A successful `digitVal?` read comes from the corresponding digit
character. -/
theorem digitChar_digitVal {c : Char} {n : Nat} (h : digitVal? c = some n) :
    Nat.digitChar n = c ∧ n < 10 := by
  unfold digitVal? at h
  split_ifs at h with h0 h1 h2 h3 h4 h5 h6 h7 h8 h9
  · injection h with hn; subst hn; subst h0; exact ⟨rfl, by omega⟩
  · injection h with hn; subst hn; subst h1; exact ⟨rfl, by omega⟩
  · injection h with hn; subst hn; subst h2; exact ⟨rfl, by omega⟩
  · injection h with hn; subst hn; subst h3; exact ⟨rfl, by omega⟩
  · injection h with hn; subst hn; subst h4; exact ⟨rfl, by omega⟩
  · injection h with hn; subst hn; subst h5; exact ⟨rfl, by omega⟩
  · injection h with hn; subst hn; subst h6; exact ⟨rfl, by omega⟩
  · injection h with hn; subst hn; subst h7; exact ⟨rfl, by omega⟩
  · injection h with hn; subst hn; subst h8; exact ⟨rfl, by omega⟩
  · injection h with hn; subst hn; subst h9; exact ⟨rfl, by omega⟩

/-- Every month has at most 31 days. -/
theorem daysInMonth_le_31 (y m : Nat) : daysInMonth y m ≤ 31 := by
  unfold daysInMonth
  split_ifs <;> omega

/-- Parsing inverts rendering: the ISO string of a valid date parses
back to that date. -/
theorem fromiso_dateToISO {d : Date} (hv : d.valid = true) :
    fromisoformat (dateToISO d) = some d := by
  obtain ⟨y, m, day⟩ := d
  simp only [Date.valid, Bool.and_eq_true, decide_eq_true_eq] at hv
  obtain ⟨⟨⟨⟨⟨hy1, hy2⟩, hm1⟩, hm2⟩, hd1⟩, hd2⟩ := hv
  show parseISO (pad4 y ++ '-' :: pad2 m ++ '-' :: pad2 day) = some ⟨y, m, day⟩
  unfold pad4 pad2
  simp only [List.cons_append, List.nil_append]
  rw [parseISO]
  rw [digitVal_digitChar (Nat.mod_lt _ (by omega)), digitVal_digitChar (Nat.mod_lt _ (by omega)),
    digitVal_digitChar (Nat.mod_lt _ (by omega)), digitVal_digitChar (Nat.mod_lt _ (by omega)),
    digitVal_digitChar (Nat.mod_lt _ (by omega)), digitVal_digitChar (Nat.mod_lt _ (by omega)),
    digitVal_digitChar (Nat.mod_lt _ (by omega)), digitVal_digitChar (Nat.mod_lt _ (by omega))]
  show (if '-' = '-' ∧ '-' = '-' then
      if 1 ≤ 1000 * (y / 1000 % 10) + 100 * (y / 100 % 10) + 10 * (y / 10 % 10) + y % 10 ∧
          1 ≤ 10 * (m / 10 % 10) + m % 10 ∧ 10 * (m / 10 % 10) + m % 10 ≤ 12 ∧
          1 ≤ 10 * (day / 10 % 10) + day % 10 ∧
          10 * (day / 10 % 10) + day % 10 ≤
            daysInMonth (1000 * (y / 1000 % 10) + 100 * (y / 100 % 10) + 10 * (y / 10 % 10) + y % 10)
              (10 * (m / 10 % 10) + m % 10) then
        some (Date.mk (1000 * (y / 1000 % 10) + 100 * (y / 100 % 10) + 10 * (y / 10 % 10) + y % 10)
          (10 * (m / 10 % 10) + m % 10) (10 * (day / 10 % 10) + day % 10))
      else none
    else none) = some (Date.mk y m day)
  rw [if_pos ⟨rfl, rfl⟩]
  have hy : 1000 * (y / 1000 % 10) + 100 * (y / 100 % 10) + 10 * (y / 10 % 10) + y % 10 = y := by
    omega
  have hm : 10 * (m / 10 % 10) + m % 10 = m := by omega
  have hd31 := daysInMonth_le_31 y m
  have hd : 10 * (day / 10 % 10) + day % 10 = day := by omega
  simp only [hy, hm, hd]
  rw [if_pos ⟨hy1, hm1, hm2, hd1, hd2⟩]

/-- Parsing is sound: a character list that parses to a date is exactly
that date's ISO rendering, and the date is valid. -/
theorem parseISO_sound {l : List Char} {d : Date} (h : parseISO l = some d) :
    d.valid = true ∧ (String.mk l) = dateToISO d := by
  unfold parseISO at h
  split at h
  case _ y1 y2 y3 y4 hh1 m1 m2 hh2 d1 d2 =>
    split at h
    case _ a b c e f g hp i heq1 heq2 heq3 heq4 heq5 heq6 heq7 heq8 =>
      obtain ⟨hcy1, ha⟩ := digitChar_digitVal heq1
      obtain ⟨hcy2, hb⟩ := digitChar_digitVal heq2
      obtain ⟨hcy3, hc⟩ := digitChar_digitVal heq3
      obtain ⟨hcy4, he⟩ := digitChar_digitVal heq4
      obtain ⟨hcm1, hf⟩ := digitChar_digitVal heq5
      obtain ⟨hcm2, hg⟩ := digitChar_digitVal heq6
      obtain ⟨hcd1, hh⟩ := digitChar_digitVal heq7
      obtain ⟨hcd2, hi⟩ := digitChar_digitVal heq8
      split at h
      case _ hdash =>
        obtain ⟨hda, hdb⟩ := hdash
        split at h
        case _ hb2 =>
          obtain ⟨hv1, hv2, hv3, hv4, hv5⟩ := hb2
          injection h with hdd
          subst hdd
          constructor
          · simp only [Date.valid, Bool.and_eq_true, decide_eq_true_eq]
            refine ⟨⟨⟨⟨⟨hv1, by omega⟩, hv2⟩, hv3⟩, hv4⟩, hv5⟩
          · have e1 : (1000 * a + 100 * b + 10 * c + e) / 1000 % 10 = a := by omega
            have e2 : (1000 * a + 100 * b + 10 * c + e) / 100 % 10 = b := by omega
            have e3 : (1000 * a + 100 * b + 10 * c + e) / 10 % 10 = c := by omega
            have e4 : (1000 * a + 100 * b + 10 * c + e) % 10 = e := by omega
            have e5 : (10 * f + g) / 10 % 10 = f := by omega
            have e6 : (10 * f + g) % 10 = g := by omega
            have e7 : (10 * hp + i) / 10 % 10 = hp := by omega
            have e8 : (10 * hp + i) % 10 = i := by omega
            simp only [dateToISO, pad4, pad2, List.cons_append, List.nil_append]
            rw [e1, e2, e3, e4, e5, e6, e7, e8]
            rw [hcy1, hcy2, hcy3, hcy4, hcm1, hcm2, hcd1, hcd2, hda, hdb]
        case _ => exact Option.noConfusion h
      case _ => exact Option.noConfusion h
    case _ => exact Option.noConfusion h
  case _ => exact Option.noConfusion h

/-- The ISO rendering of a date is never the empty string. -/
theorem dateToISO_ne_empty (d : Date) : dateToISO d ≠ "" := by
  intro hcon
  have hdata := congrArg String.data hcon
  simp [dateToISO, pad4, pad2] at hdata

/-- C8: `check_date_format` maps the empty string to an absent date,
parses the ISO `YYYY-MM-DD` rendering of every valid date to exactly
that date, and rejects every other string with the fixed date-format
`ValueError` — all during input construction, before any store access. -/
theorem check_date_format_spec (s : String) :
    (s = "" → check_date_format s = .ok none) ∧
    (∀ d : Date, d.valid = true → s = dateToISO d → check_date_format s = .ok (some d)) ∧
    (s ≠ "" → (∀ d : Date, d.valid = true → s ≠ dateToISO d) →
      check_date_format s =
        .error (.valueError "Invalid date format. Required format: YYYY-MM-DD")) := by
  refine ⟨?_, ?_, ?_⟩
  · rintro rfl
    rfl
  · rintro d hv rfl
    have hbeq : (dateToISO d == "") = false := beq_eq_false_iff_ne.mpr (dateToISO_ne_empty d)
    simp only [check_date_format, hbeq, Bool.false_eq_true, if_false, fromiso_dateToISO hv]
  · intro hne hnd
    have hbeq : (s == "") = false := beq_eq_false_iff_ne.mpr hne
    simp only [check_date_format, hbeq, Bool.false_eq_true, if_false]
    cases hp : fromisoformat s with
    | none => rfl
    | some d =>
      exfalso
      obtain ⟨hv, hs⟩ := parseISO_sound (l := s.data) hp
      refine hnd d hv ?_
      cases s
      exact hs

/-- Closed instance of `check_date_format_spec`: `"2024-03-15"` parses
to March 15, 2024. -/
theorem check_date_format_spec_witness :
    check_date_format "2024-03-15" = .ok (some ⟨2024, 3, 15⟩) :=
  (check_date_format_spec "2024-03-15").2.1 ⟨2024, 3, 15⟩ (by decide) (by decide)

end HW14
